import Mathlib

/-!
Verification of the activity-registry module of the Mergington High School
activities service (`src/app.py`).

The registry is an in-memory mapping from activity name to an activity
record; we embed it as an association list with unique keys (the seed data
has unique keys and no operation adds or removes a key).  The two mutating
HTTP handlers `signup_for_activity` and `unregister_from_activity` are
embedded as pure functions from a registry state to either an
`HTTPException` (status code plus detail message, exactly as raised by the
code) or a new state together with the confirmation message.  Python's
`list.append` becomes appending a singleton, and `list.remove` (which
removes the first occurrence) becomes `List.erase`.
-/

/-- An activity record: the four fields of each value of the `activities`
dict in `src/app.py`. -/
structure Activity where
  description : String
  schedule : String
  max_participants : Nat
  participants : List String
deriving Repr, DecidableEq

/-- The registry state: the in-memory `activities` dict, as an association
list from activity name to record. -/
abbrev Registry := List (String × Activity)

/-- Dict key lookup: `activities[activity_name]` / `activity_name in activities`. -/
def lookupActivity : Registry → String → Option Activity
  | [], _ => none
  | (n, a) :: rest, name => if name = n then some a else lookupActivity rest name

/-- In-place mutation of one entry's participant list
(`activity["participants"].append(...)` / `.remove(...)` mutate the record
held in the dict): replace the participants of the first entry with the
given key. -/
def setParticipants : Registry → String → List String → Registry
  | [], _, _ => []
  | (n, a) :: rest, name, ps =>
    if n = name then (n, { a with participants := ps }) :: rest
    else (n, a) :: setParticipants rest name ps

/-- A FastAPI `HTTPException(status_code=..., detail=...)`. -/
structure HTTPException where
  status_code : Nat
  detail : String
deriving Repr, DecidableEq

/-- The seed registry: the literal `activities` dict of `src/app.py`. -/
def activities : Registry := [
  ("Chess Club",
    { description := "Learn strategies and compete in chess tournaments",
      schedule := "Fridays, 3:30 PM - 5:00 PM",
      max_participants := 12,
      participants := ["michael@mergington.edu", "daniel@mergington.edu"] }),
  ("Programming Class",
    { description := "Learn programming fundamentals and build software projects",
      schedule := "Tuesdays and Thursdays, 3:30 PM - 4:30 PM",
      max_participants := 20,
      participants := ["emma@mergington.edu", "sophia@mergington.edu"] }),
  ("Gym Class",
    { description := "Physical education and sports activities",
      schedule := "Mondays, Wednesdays, Fridays, 2:00 PM - 3:00 PM",
      max_participants := 30,
      participants := ["john@mergington.edu", "olivia@mergington.edu"] }),
  ("Basketball Team",
    { description := "Competitive basketball training and matches",
      schedule := "Mondays and Wednesdays, 4:00 PM - 5:30 PM",
      max_participants := 15,
      participants := ["james@mergington.edu"] }),
  ("Tennis Club",
    { description := "Tennis lessons and tournament preparation",
      schedule := "Tuesdays and Thursdays, 4:00 PM - 5:00 PM",
      max_participants := 10,
      participants := ["alex@mergington.edu"] }),
  ("Debate Team",
    { description := "Develop critical thinking and public speaking skills",
      schedule := "Wednesdays, 3:30 PM - 5:00 PM",
      max_participants := 16,
      participants := ["sarah@mergington.edu", "marcus@mergington.edu"] }),
  ("Science Club",
    { description := "Explore scientific experiments and research projects",
      schedule := "Fridays, 4:00 PM - 5:30 PM",
      max_participants := 18,
      participants := ["lisa@mergington.edu"] }),
  ("Art Studio",
    { description := "Painting, drawing, and visual arts creation",
      schedule := "Mondays and Thursdays, 3:30 PM - 5:00 PM",
      max_participants := 14,
      participants := ["nina@mergington.edu", "carlos@mergington.edu"] }),
  ("Music Band",
    { description := "Learn instruments and perform in concerts",
      schedule := "Tuesdays and Fridays, 3:30 PM - 4:30 PM",
      max_participants := 25,
      participants := ["david@mergington.edu"] })]

/-- `GET /activities`: the handler body is `return activities`; it reads the
state and returns it unchanged. -/
def get_activities (st : Registry) : Registry := st

/-- `POST /activities/{activity_name}/signup` (`signup_for_activity` in
`src/app.py`): validate that the activity exists, that the student is not
already signed up, and that the activity is not full, in that order; then
append the email to the participants and return the confirmation message. -/
def signup_for_activity (st : Registry) (activity_name email : String) :
    Except HTTPException (Registry × String) :=
  match lookupActivity st activity_name with
  | none => .error { status_code := 404, detail := "Activity not found" }
  | some activity =>
    if email ∈ activity.participants then
      .error { status_code := 400, detail := "Student already signed up for this activity" }
    else if activity.participants.length ≥ activity.max_participants then
      .error { status_code := 400, detail := "This activity is full" }
    else
      .ok (setParticipants st activity_name (activity.participants ++ [email]),
           "Signed up " ++ email ++ " for " ++ activity_name)

/-- `DELETE /activities/{activity_name}/participants`
(`unregister_from_activity` in `src/app.py`): validate that the activity
exists and that the student is signed up; then remove the first occurrence
of the email (`list.remove`) and return the confirmation message. -/
def unregister_from_activity (st : Registry) (activity_name email : String) :
    Except HTTPException (Registry × String) :=
  match lookupActivity st activity_name with
  | none => .error { status_code := 404, detail := "Activity not found" }
  | some activity =>
    if email ∉ activity.participants then
      .error { status_code := 404, detail := "Student not found in activity" }
    else
      .ok (setParticipants st activity_name (activity.participants.erase email),
           "Removed " ++ email ++ " from " ++ activity_name)

/-- The registry state after a signup request: the new state on success, the
unchanged state when the handler raises. -/
def enrollState (st : Registry) (activity_name email : String) : Registry :=
  match signup_for_activity st activity_name email with
  | .ok (st', _) => st'
  | .error _ => st

/-- The registry state after an unregister request: the new state on
success, the unchanged state when the handler raises. -/
def withdrawState (st : Registry) (activity_name email : String) : Registry :=
  match unregister_from_activity st activity_name email with
  | .ok (st', _) => st'
  | .error _ => st

/-- The spec's data-model invariant, per record: no duplicate participant
email, and the roster never exceeds the capacity. -/
def ActivityInv (a : Activity) : Prop :=
  a.participants.Nodup ∧ a.participants.length ≤ a.max_participants

instance (a : Activity) : Decidable (ActivityInv a) := by
  unfold ActivityInv; infer_instance

/-- The registry invariant: every record in the registry satisfies
`ActivityInv`. -/
def RegistryInv (st : Registry) : Prop := ∀ p ∈ st, ActivityInv p.2

instance (st : Registry) : Decidable (RegistryInv st) := by
  unfold RegistryInv; exact List.decidableBAll _ st

/-- Nine distinct fresh emails, used to fill Tennis Club (capacity 10, one
seed participant) to exactly its capacity. -/
def tennisEmails : List String :=
  ["s1@mergington.edu", "s2@mergington.edu", "s3@mergington.edu",
   "s4@mergington.edu", "s5@mergington.edu", "s6@mergington.edu",
   "s7@mergington.edu", "s8@mergington.edu", "s9@mergington.edu"]

/-- The registry state after a sequence of signup requests for the same
activity, one per email, in order. -/
def enrollMany (st : Registry) (name : String) : List String → Registry
  | [] => st
  | e :: rest => enrollMany (enrollState st name e) name rest

/-- Whether every signup in a sequence of signup requests for the same
activity succeeds, each starting from the state the previous one produced. -/
def enrollAllOk (st : Registry) (name : String) : List String → Bool
  | [] => true
  | e :: rest =>
    match signup_for_activity st name e with
    | .ok (st', _) => enrollAllOk st' name rest
    | .error _ => false

/-- A successful lookup returns an entry of the registry. -/
theorem lookupActivity_mem {st : Registry} {name : String} {a : Activity}
    (h : lookupActivity st name = some a) : (name, a) ∈ st := by
  induction st with
  | nil => simp [lookupActivity] at h
  | cons p rest ih =>
    obtain ⟨n, b⟩ := p
    simp only [lookupActivity] at h
    by_cases hn : name = n
    · rw [if_pos hn] at h
      injection h with h
      subst hn
      subst h
      exact List.mem_cons_self _ _
    · rw [if_neg hn] at h
      exact List.mem_cons_of_mem _ (ih h)

/-- Updating the participants of the looked-up activity is visible to a
subsequent lookup of the same name. -/
theorem lookupActivity_setParticipants_self {st : Registry} {name : String} {a : Activity}
    (h : lookupActivity st name = some a) (ps : List String) :
    lookupActivity (setParticipants st name ps) name =
      some { a with participants := ps } := by
  induction st with
  | nil => simp [lookupActivity] at h
  | cons p rest ih =>
    obtain ⟨n, b⟩ := p
    simp only [lookupActivity] at h
    by_cases hn : name = n
    · rw [if_pos hn] at h
      injection h with h
      simp only [setParticipants]
      rw [if_pos hn.symm]
      simp only [lookupActivity]
      rw [if_pos hn, h]
    · rw [if_neg hn] at h
      have hn' : n ≠ name := fun e => hn e.symm
      simp only [setParticipants]
      rw [if_neg hn']
      simp only [lookupActivity]
      rw [if_neg hn]
      exact ih h

/-- Updating the participants of one activity does not affect lookups of any
other name. -/
theorem lookupActivity_setParticipants_ne {st : Registry} {name : String}
    (n : String) (hn : n ≠ name) (ps : List String) :
    lookupActivity (setParticipants st name ps) n = lookupActivity st n := by
  induction st with
  | nil => rfl
  | cons p rest ih =>
    obtain ⟨k, b⟩ := p
    by_cases hk : k = name
    · subst hk
      have : n ≠ k := hn
      simp [setParticipants, lookupActivity, if_neg this]
    · by_cases hnk : n = k
      · subst hnk
        simp [setParticipants, if_neg hk, lookupActivity]
      · simp [setParticipants, if_neg hk, lookupActivity, if_neg hnk, ih]

/-- Updating participants never changes the set (or order) of activity names. -/
theorem setParticipants_keys (st : Registry) (name : String) (ps : List String) :
    (setParticipants st name ps).map Prod.fst = st.map Prod.fst := by
  induction st with
  | nil => rfl
  | cons p rest ih =>
    obtain ⟨k, b⟩ := p
    by_cases hk : k = name <;> simp [setParticipants, hk, ih]

/-- Every entry of the updated registry is either an untouched entry of the
original registry or the looked-up activity with its new participants. -/
theorem mem_setParticipants {st : Registry} {name : String} {a : Activity}
    (h : lookupActivity st name = some a) (ps : List String) :
    ∀ p ∈ setParticipants st name ps,
      p ∈ st ∨ p = (name, { a with participants := ps }) := by
  induction st with
  | nil => simp [lookupActivity] at h
  | cons q rest ih =>
    obtain ⟨k, b⟩ := q
    intro p hp
    simp only [lookupActivity] at h
    simp only [setParticipants] at hp
    by_cases hk : k = name
    · rw [if_pos hk.symm] at h
      injection h with h
      rw [if_pos hk] at hp
      subst hk
      subst h
      rcases List.mem_cons.mp hp with hp | hp
      · exact Or.inr hp
      · exact Or.inl (List.mem_cons_of_mem _ hp)
    · have hn : ¬ name = k := fun e => hk e.symm
      rw [if_neg hn] at h
      rw [if_neg hk] at hp
      rcases List.mem_cons.mp hp with hp | hp
      · exact Or.inl (by simp [hp])
      · rcases ih h p hp with hl | hr
        · exact Or.inl (List.mem_cons_of_mem _ hl)
        · exact Or.inr hr

/-- Evaluation of a signup that hits the existence check. -/
theorem signup_eq_of_not_found {st : Registry} {name : String} (email : String)
    (h : lookupActivity st name = none) :
    signup_for_activity st name email =
      .error { status_code := 404, detail := "Activity not found" } := by
  simp [signup_for_activity, h]

/-- Evaluation of a signup that hits the duplicate check. -/
theorem signup_eq_of_dup {st : Registry} {name email : String} {a : Activity}
    (h : lookupActivity st name = some a) (hm : email ∈ a.participants) :
    signup_for_activity st name email =
      .error { status_code := 400, detail := "Student already signed up for this activity" } := by
  simp [signup_for_activity, h, hm]

/-- Evaluation of a signup that hits the capacity check. -/
theorem signup_eq_of_full {st : Registry} {name email : String} {a : Activity}
    (h : lookupActivity st name = some a) (hm : email ∉ a.participants)
    (hc : a.max_participants ≤ a.participants.length) :
    signup_for_activity st name email =
      .error { status_code := 400, detail := "This activity is full" } := by
  simp [signup_for_activity, h, hm, hc]

/-- Evaluation of a signup that passes all three checks. -/
theorem signup_eq_of_ok {st : Registry} {name email : String} {a : Activity}
    (h : lookupActivity st name = some a) (hm : email ∉ a.participants)
    (hc : a.participants.length < a.max_participants) :
    signup_for_activity st name email =
      .ok (setParticipants st name (a.participants ++ [email]),
           "Signed up " ++ email ++ " for " ++ name) := by
  simp [signup_for_activity, h, hm, Nat.not_le_of_lt hc]

/-- Inversion of a successful signup: the three checks passed and the new
state and message have the evaluated shape. -/
theorem signup_ok_inv {st st' : Registry} {name email msg : String}
    (h : signup_for_activity st name email = .ok (st', msg)) :
    ∃ a, lookupActivity st name = some a ∧ email ∉ a.participants ∧
      a.participants.length < a.max_participants ∧
      st' = setParticipants st name (a.participants ++ [email]) ∧
      msg = "Signed up " ++ email ++ " for " ++ name := by
  cases hl : lookupActivity st name with
  | none => rw [signup_eq_of_not_found email hl] at h; cases h
  | some a =>
    by_cases hm : email ∈ a.participants
    · rw [signup_eq_of_dup hl hm] at h; cases h
    · by_cases hc : a.max_participants ≤ a.participants.length
      · rw [signup_eq_of_full hl hm hc] at h; cases h
      · rw [signup_eq_of_ok hl hm (Nat.lt_of_not_le hc)] at h
        injection h with h
        injection h with h1 h2
        exact ⟨a, rfl, hm, Nat.lt_of_not_le hc, h1.symm, h2.symm⟩

/-- Evaluation of an unregister that hits the existence check. -/
theorem unregister_eq_of_not_found {st : Registry} {name : String} (email : String)
    (h : lookupActivity st name = none) :
    unregister_from_activity st name email =
      .error { status_code := 404, detail := "Activity not found" } := by
  simp [unregister_from_activity, h]

/-- Evaluation of an unregister that hits the membership check. -/
theorem unregister_eq_of_absent {st : Registry} {name email : String} {a : Activity}
    (h : lookupActivity st name = some a) (hm : email ∉ a.participants) :
    unregister_from_activity st name email =
      .error { status_code := 404, detail := "Student not found in activity" } := by
  simp [unregister_from_activity, h, hm]

/-- Evaluation of an unregister that passes both checks. -/
theorem unregister_eq_of_ok {st : Registry} {name email : String} {a : Activity}
    (h : lookupActivity st name = some a) (hm : email ∈ a.participants) :
    unregister_from_activity st name email =
      .ok (setParticipants st name (a.participants.erase email),
           "Removed " ++ email ++ " from " ++ name) := by
  simp [unregister_from_activity, h, hm]

/-- Inversion of a successful unregister. -/
theorem unregister_ok_inv {st st' : Registry} {name email msg : String}
    (h : unregister_from_activity st name email = .ok (st', msg)) :
    ∃ a, lookupActivity st name = some a ∧ email ∈ a.participants ∧
      st' = setParticipants st name (a.participants.erase email) ∧
      msg = "Removed " ++ email ++ " from " ++ name := by
  cases hl : lookupActivity st name with
  | none => rw [unregister_eq_of_not_found email hl] at h; cases h
  | some a =>
    by_cases hm : email ∈ a.participants
    · rw [unregister_eq_of_ok hl hm] at h
      injection h with h
      injection h with h1 h2
      exact ⟨a, rfl, hm, h1.symm, h2.symm⟩
    · rw [unregister_eq_of_absent hl hm] at h; cases h

/-- C1: `enroll` validates in this exact order: unknown activity gives
404 "Activity not found" regardless of any other condition; otherwise a
duplicate email gives 400 "Student already signed up for this activity"
even when the activity is also full; otherwise a full activity gives
400 "This activity is full"; only when all three checks pass does the
signup succeed. -/
theorem enroll_validation_order (st : Registry) (name email : String) :
    (lookupActivity st name = none →
      signup_for_activity st name email =
        .error { status_code := 404, detail := "Activity not found" }) ∧
    ∀ a, lookupActivity st name = some a →
      (email ∈ a.participants →
        signup_for_activity st name email =
          .error { status_code := 400,
                   detail := "Student already signed up for this activity" }) ∧
      (email ∉ a.participants → a.max_participants ≤ a.participants.length →
        signup_for_activity st name email =
          .error { status_code := 400, detail := "This activity is full" }) ∧
      (email ∉ a.participants → a.participants.length < a.max_participants →
        ∃ st' msg, signup_for_activity st name email = .ok (st', msg)) := by
  refine ⟨fun h => signup_eq_of_not_found email h,
    fun a ha => ⟨fun hm => signup_eq_of_dup ha hm,
      fun hm hc => signup_eq_of_full ha hm hc,
      fun hm hc => ⟨_, _, signup_eq_of_ok ha hm hc⟩⟩⟩

/-- Witness for `enroll_validation_order`: in the seed state, signing
`michael@mergington.edu` up for Chess Club (he is already a member) yields
the 400 duplicate error. -/
theorem enroll_validation_order_witness :
    signup_for_activity activities "Chess Club" "michael@mergington.edu" =
      .error { status_code := 400,
               detail := "Student already signed up for this activity" } :=
  ((enroll_validation_order activities "Chess Club" "michael@mergington.edu").2
    { description := "Learn strategies and compete in chess tournaments",
      schedule := "Fridays, 3:30 PM - 5:00 PM",
      max_participants := 12,
      participants := ["michael@mergington.edu", "daniel@mergington.edu"] }
    (by decide)).1 (by decide)

/-- C2: a signup for a registered activity with a fresh email and free
capacity succeeds; the new participants list is the old one with the email
appended at the end (previous entries unchanged, in order), and the
confirmation message mentions both the email and the activity name. -/
theorem enroll_success_appends (st : Registry) (name email : String) (a : Activity)
    (hlook : lookupActivity st name = some a)
    (hmem : email ∉ a.participants)
    (hcap : a.participants.length < a.max_participants) :
    ∃ st' msg, signup_for_activity st name email = .ok (st', msg) ∧
      lookupActivity st' name =
        some { a with participants := a.participants ++ [email] } ∧
      (∃ s t, msg = s ++ email ++ t) ∧ ∃ u v, msg = u ++ name ++ v := by
  refine ⟨_, _, signup_eq_of_ok hlook hmem hcap,
    lookupActivity_setParticipants_self hlook _,
    ⟨"Signed up ", " for " ++ name, ?_⟩,
    ⟨"Signed up " ++ email ++ " for ", "", ?_⟩⟩
  · rw [String.append_assoc]
  · rw [String.append_empty]

/-- Witness for `enroll_success_appends`: in the seed state, signing
`zoe@mergington.edu` up for Tennis Club succeeds and appends her to the
roster. -/
theorem enroll_success_appends_witness :
    ∃ st' msg,
      signup_for_activity activities "Tennis Club" "zoe@mergington.edu" =
        .ok (st', msg) ∧
      lookupActivity st' "Tennis Club" =
        some { description := "Tennis lessons and tournament preparation",
               schedule := "Tuesdays and Thursdays, 4:00 PM - 5:00 PM",
               max_participants := 10,
               participants := ["alex@mergington.edu", "zoe@mergington.edu"] } ∧
      (∃ s t, msg = s ++ "zoe@mergington.edu" ++ t) ∧
      ∃ u v, msg = u ++ "Tennis Club" ++ v :=
  enroll_success_appends activities "Tennis Club" "zoe@mergington.edu"
    { description := "Tennis lessons and tournament preparation",
      schedule := "Tuesdays and Thursdays, 4:00 PM - 5:00 PM",
      max_participants := 10,
      participants := ["alex@mergington.edu"] }
    (by decide) (by decide) (by decide)

/-- C3: `withdraw` checks existence first (404 "Activity not found"), then
membership (404 "Student not found in activity"); otherwise it removes the
email from the participants and succeeds, and (the participants having no
duplicates, as the registry invariant guarantees) the email is no longer a
member afterwards. -/
theorem withdraw_validation_and_removal (st : Registry) (name email : String) :
    (lookupActivity st name = none →
      unregister_from_activity st name email =
        .error { status_code := 404, detail := "Activity not found" }) ∧
    ∀ a, lookupActivity st name = some a →
      (email ∉ a.participants →
        unregister_from_activity st name email =
          .error { status_code := 404, detail := "Student not found in activity" }) ∧
      (email ∈ a.participants →
        ∃ st' msg, unregister_from_activity st name email = .ok (st', msg) ∧
          lookupActivity st' name =
            some { a with participants := a.participants.erase email } ∧
          (a.participants.Nodup →
            ∀ a', lookupActivity st' name = some a' →
              email ∉ a'.participants)) := by
  refine ⟨fun h => unregister_eq_of_not_found email h,
    fun a ha => ⟨fun hm => unregister_eq_of_absent ha hm, fun hm => ?_⟩⟩
  refine ⟨_, _, unregister_eq_of_ok ha hm,
    lookupActivity_setParticipants_self ha _, fun hnd a' ha' => ?_⟩
  rw [lookupActivity_setParticipants_self ha _] at ha'
  injection ha' with ha'
  rw [← ha']
  exact hnd.not_mem_erase

/-- Witness for `withdraw_validation_and_removal`: in the seed state,
withdrawing `michael@mergington.edu` from Chess Club succeeds and he is no
longer on the roster. -/
theorem withdraw_validation_and_removal_witness :
    ∃ st' msg,
      unregister_from_activity activities "Chess Club" "michael@mergington.edu" =
        .ok (st', msg) ∧
      lookupActivity st' "Chess Club" =
        some { description := "Learn strategies and compete in chess tournaments",
               schedule := "Fridays, 3:30 PM - 5:00 PM",
               max_participants := 12,
               participants := ["daniel@mergington.edu"] } ∧
      (["michael@mergington.edu", "daniel@mergington.edu"].Nodup →
        ∀ a', lookupActivity st' "Chess Club" = some a' →
          "michael@mergington.edu" ∉ a'.participants) :=
  ((withdraw_validation_and_removal activities "Chess Club"
      "michael@mergington.edu").2
    { description := "Learn strategies and compete in chess tournaments",
      schedule := "Fridays, 3:30 PM - 5:00 PM",
      max_participants := 12,
      participants := ["michael@mergington.edu", "daniel@mergington.edu"] }
    (by decide)).2 (by decide)

/-- C4: the registry invariant (no duplicate participant email, roster
length at most the capacity, for every activity) holds in the seed state
and is preserved by every operation, successful or failing. -/
theorem invariant_preserved :
    RegistryInv activities ∧
    ∀ st name email, RegistryInv st →
      RegistryInv (get_activities st) ∧
      RegistryInv (enrollState st name email) ∧
      RegistryInv (withdrawState st name email) := by
  refine ⟨by decide, fun st name email hinv => ⟨hinv, ?_, ?_⟩⟩
  · cases heq : signup_for_activity st name email with
    | error e => simpa [enrollState, heq] using hinv
    | ok r =>
      obtain ⟨st', msg⟩ := r
      have hst : enrollState st name email = st' := by simp [enrollState, heq]
      rw [hst]
      obtain ⟨a, hl, hm, hc, hrw, -⟩ := signup_ok_inv heq
      subst hrw
      intro p hp
      rcases mem_setParticipants hl _ p hp with h | h
      · exact hinv p h
      · subst h
        obtain ⟨hnd, hlen⟩ := hinv _ (lookupActivity_mem hl)
        refine ⟨?_, ?_⟩
        · simpa [List.nodup_append, hnd] using hm
        · simpa using hc
  · cases heq : unregister_from_activity st name email with
    | error e => simpa [withdrawState, heq] using hinv
    | ok r =>
      obtain ⟨st', msg⟩ := r
      have hst : withdrawState st name email = st' := by simp [withdrawState, heq]
      rw [hst]
      obtain ⟨a, hl, hm, hrw, -⟩ := unregister_ok_inv heq
      subst hrw
      intro p hp
      rcases mem_setParticipants hl _ p hp with h | h
      · exact hinv p h
      · subst h
        obtain ⟨hnd, hlen⟩ := hinv _ (lookupActivity_mem hl)
        exact ⟨hnd.erase email,
          le_trans (List.erase_sublist email a.participants).length_le hlen⟩

/-- Witness for `invariant_preserved`: the invariant holds after signing a
fresh email up for Tennis Club from the seed state. -/
theorem invariant_preserved_witness :
    RegistryInv (enrollState activities "Tennis Club" "zoe@mergington.edu") :=
  ((invariant_preserved.2 activities "Tennis Club" "zoe@mergington.edu"
    (by decide)).2).1

/-- C5: the capacity check is an exact boundary: for a registered activity
and a fresh email, the signup succeeds exactly when the roster is strictly
below the capacity; concretely, from the seed state Tennis Club (capacity
10, one seed participant) accepts 9 further distinct emails and rejects a
10th with the 400 full error. -/
theorem capacity_boundary :
    (∀ st name email a, lookupActivity st name = some a →
      email ∉ a.participants →
      ((∃ r, signup_for_activity st name email = .ok r) ↔
        a.participants.length < a.max_participants)) ∧
    enrollAllOk activities "Tennis Club" tennisEmails = true ∧
    signup_for_activity (enrollMany activities "Tennis Club" tennisEmails)
        "Tennis Club" "s10@mergington.edu" =
      .error { status_code := 400, detail := "This activity is full" } := by
  refine ⟨fun st name email a hl hm =>
    ⟨fun h => ?_, fun hc => ⟨_, signup_eq_of_ok hl hm hc⟩⟩, by decide, by rfl⟩
  obtain ⟨⟨st', msg⟩, hr⟩ := h
  obtain ⟨a', hl', -, hc', -, -⟩ := signup_ok_inv hr
  rw [hl] at hl'
  injection hl' with hl'
  rw [hl']
  exact hc'

/-- Witness for `capacity_boundary`: Basketball Team (capacity 15, one seed
participant) accepts a fresh email. -/
theorem capacity_boundary_witness :
    ∃ r, signup_for_activity activities "Basketball Team" "bob@mergington.edu" =
      .ok r :=
  (capacity_boundary.1 activities "Basketball Team" "bob@mergington.edu"
    { description := "Competitive basketball training and matches",
      schedule := "Mondays and Wednesdays, 4:00 PM - 5:30 PM",
      max_participants := 15,
      participants := ["james@mergington.edu"] }
    (by decide) (by decide)).mpr (by decide)

/-- C6: every operation is atomic: whenever a signup or an unregister fails
with any error, the registry state after the call equals the state before
it. -/
theorem operations_atomic (st : Registry) (name email : String) :
    (∀ err, signup_for_activity st name email = .error err →
      enrollState st name email = st) ∧
    (∀ err, unregister_from_activity st name email = .error err →
      withdrawState st name email = st) := by
  constructor <;> intro err h <;> simp [enrollState, withdrawState, h]

/-- Witness for `operations_atomic`: withdrawing from the unknown activity
name Swim Team leaves the seed state unchanged. -/
theorem operations_atomic_witness :
    withdrawState activities "Swim Team" "alex@mergington.edu" = activities :=
  (operations_atomic activities "Swim Team" "alex@mergington.edu").2
    { status_code := 404, detail := "Activity not found" } (by rfl)

/-- Re-appending a removed email restores membership: a list obtained by
erasing an email and appending it at the end has the same members as the
original list. -/
theorem mem_erase_append_iff {l : List String} {email : String}
    (hmem : email ∈ l) (x : String) :
    x ∈ l.erase email ++ [email] ↔ x ∈ l := by
  by_cases hx : x = email
  · subst hx; simp [hmem]
  · simp [List.mem_append, hx, List.mem_erase_of_ne hx]

/-- The capacity left after erasing a present email: the roster drops below
the capacity, so a subsequent signup passes the capacity check. -/
theorem length_erase_lt_max {l : List String} {email : String} {m : Nat}
    (hmem : email ∈ l) (hlen : l.length ≤ m) : (l.erase email).length < m := by
  have hpos : 0 < l.length := List.length_pos.mpr (List.ne_nil_of_mem hmem)
  rw [List.length_erase_of_mem hmem]
  omega

/-- C7: for a registered activity whose roster contains the email (in a
state satisfying the registry invariant), withdrawing the email and then
re-enrolling it both succeed and the final participant set equals the set
before the withdraw. -/
theorem withdraw_then_enroll_set_roundtrip (st : Registry) (name email : String)
    (a : Activity) (hinv : RegistryInv st)
    (hlook : lookupActivity st name = some a)
    (hmem : email ∈ a.participants) :
    ∃ st' msg st'' msg2 a'',
      unregister_from_activity st name email = .ok (st', msg) ∧
      signup_for_activity st' name email = .ok (st'', msg2) ∧
      lookupActivity st'' name = some a'' ∧
      ∀ x, x ∈ a''.participants ↔ x ∈ a.participants := by
  obtain ⟨hnd, hlen⟩ := hinv _ (lookupActivity_mem hlook)
  have hlook' :
      lookupActivity (setParticipants st name (a.participants.erase email)) name =
        some { a with participants := a.participants.erase email } :=
    lookupActivity_setParticipants_self hlook _
  have hmem' : email ∉ a.participants.erase email := hnd.not_mem_erase
  have hcap' : (a.participants.erase email).length < a.max_participants :=
    length_erase_lt_max hmem hlen
  refine ⟨_, _, _, _, _, unregister_eq_of_ok hlook hmem,
    signup_eq_of_ok hlook' hmem' hcap',
    lookupActivity_setParticipants_self hlook' _, fun x => ?_⟩
  exact mem_erase_append_iff hmem x

/-- Witness for `withdraw_then_enroll_set_roundtrip`: withdrawing
`michael@mergington.edu` from Chess Club and re-enrolling him restores the
participant set. -/
theorem withdraw_then_enroll_set_roundtrip_witness :
    ∃ st' msg st'' msg2 a'',
      unregister_from_activity activities "Chess Club"
        "michael@mergington.edu" = .ok (st', msg) ∧
      signup_for_activity st' "Chess Club" "michael@mergington.edu" =
        .ok (st'', msg2) ∧
      lookupActivity st'' "Chess Club" = some a'' ∧
      ∀ x, x ∈ a''.participants ↔
        x ∈ ["michael@mergington.edu", "daniel@mergington.edu"] :=
  withdraw_then_enroll_set_roundtrip activities "Chess Club"
    "michael@mergington.edu"
    { description := "Learn strategies and compete in chess tournaments",
      schedule := "Fridays, 3:30 PM - 5:00 PM",
      max_participants := 12,
      participants := ["michael@mergington.edu", "daniel@mergington.edu"] }
    (by decide) (by decide) (by decide)

/-- C8: listing the activities has no side effects and always succeeds: it
returns the full registry mapping, leaves the state unchanged, and two
consecutive calls with no intervening write return identical results. -/
theorem list_activities_pure (st : Registry) :
    get_activities st = st ∧
    get_activities (get_activities st) = get_activities st :=
  ⟨rfl, rfl⟩

/-- Frame of a participants update: lookups of other names are unchanged,
and the updated record keeps its description, schedule and capacity. -/
theorem setParticipants_frame {st : Registry} {name : String} {a : Activity}
    (hl : lookupActivity st name = some a) (ps : List String) :
    (∀ n, n ≠ name →
      lookupActivity (setParticipants st name ps) n = lookupActivity st n) ∧
    ∀ a', lookupActivity (setParticipants st name ps) name = some a' →
      a'.description = a.description ∧ a'.schedule = a.schedule ∧
      a'.max_participants = a.max_participants := by
  refine ⟨fun n hn => lookupActivity_setParticipants_ne n hn ps, fun a' ha' => ?_⟩
  rw [lookupActivity_setParticipants_self hl ps] at ha'
  injection ha' with ha'
  rw [← ha']
  exact ⟨rfl, rfl, rfl⟩

/-- C9: no operation creates or deletes an activity (the name sequence is
unchanged even on failure), and a successful signup or unregister changes
nothing but the participants of the targeted activity: its other fields and
the records of all other activities are untouched. -/
theorem frame_property (st : Registry) (name email : String) :
    ((enrollState st name email).map Prod.fst = st.map Prod.fst ∧
     (withdrawState st name email).map Prod.fst = st.map Prod.fst) ∧
    (∀ st' msg, signup_for_activity st name email = .ok (st', msg) →
      (∀ n, n ≠ name → lookupActivity st' n = lookupActivity st n) ∧
      ∀ a a', lookupActivity st name = some a →
        lookupActivity st' name = some a' →
        a'.description = a.description ∧ a'.schedule = a.schedule ∧
        a'.max_participants = a.max_participants) ∧
    (∀ st' msg, unregister_from_activity st name email = .ok (st', msg) →
      (∀ n, n ≠ name → lookupActivity st' n = lookupActivity st n) ∧
      ∀ a a', lookupActivity st name = some a →
        lookupActivity st' name = some a' →
        a'.description = a.description ∧ a'.schedule = a.schedule ∧
        a'.max_participants = a.max_participants) := by
  refine ⟨⟨?_, ?_⟩, fun st' msg h => ?_, fun st' msg h => ?_⟩
  · cases heq : signup_for_activity st name email with
    | error e => simp [enrollState, heq]
    | ok r =>
      obtain ⟨st', msg⟩ := r
      obtain ⟨a, hl, -, -, hst, -⟩ := signup_ok_inv heq
      simp only [enrollState, heq, hst]
      exact setParticipants_keys st name _
  · cases heq : unregister_from_activity st name email with
    | error e => simp [withdrawState, heq]
    | ok r =>
      obtain ⟨st', msg⟩ := r
      obtain ⟨a, hl, -, hst, -⟩ := unregister_ok_inv heq
      simp only [withdrawState, heq, hst]
      exact setParticipants_keys st name _
  · obtain ⟨a0, hl0, -, -, hst, -⟩ := signup_ok_inv h
    subst hst
    refine ⟨(setParticipants_frame hl0 _).1, fun a a' ha ha' => ?_⟩
    rw [hl0] at ha
    injection ha with ha
    subst ha
    exact (setParticipants_frame hl0 _).2 a' ha'
  · obtain ⟨a0, hl0, -, hst, -⟩ := unregister_ok_inv h
    subst hst
    refine ⟨(setParticipants_frame hl0 _).1, fun a a' ha ha' => ?_⟩
    rw [hl0] at ha
    injection ha with ha
    subst ha
    exact (setParticipants_frame hl0 _).2 a' ha'

/-- Witness for `frame_property`: signing a fresh email up for Tennis Club
keeps the activity-name sequence and the Chess Club record unchanged. -/
theorem frame_property_witness :
    (enrollState activities "Tennis Club" "zoe@mergington.edu").map Prod.fst =
      activities.map Prod.fst ∧
    lookupActivity (enrollState activities "Tennis Club" "zoe@mergington.edu")
        "Chess Club" = lookupActivity activities "Chess Club" := by
  have h := frame_property activities "Tennis Club" "zoe@mergington.edu"
  refine ⟨h.1.1, ?_⟩
  exact (h.2.1 (enrollState activities "Tennis Club" "zoe@mergington.edu")
    ("Signed up " ++ "zoe@mergington.edu" ++ " for " ++ "Tennis Club")
    (by rfl)).1 "Chess Club" (by decide)

/-- C10: a successful withdraw removes exactly one element, the first
occurrence of the email, keeping the remaining participants in their
relative order; moreover, when the email is not the last participant,
withdrawing it and re-enrolling it restores the participant set but not the
original sequence, because the email is moved to the end. -/
theorem withdraw_first_occurrence (st : Registry) (name email : String)
    (a : Activity) (hinv : RegistryInv st)
    (hlook : lookupActivity st name = some a)
    (hmem : email ∈ a.participants) :
    (∃ l1 l2, a.participants = l1 ++ email :: l2 ∧ email ∉ l1 ∧
      ∃ st' msg, unregister_from_activity st name email = .ok (st', msg) ∧
        lookupActivity st' name = some { a with participants := l1 ++ l2 }) ∧
    (a.participants.getLast? ≠ some email →
      ∃ st' msg st'' msg2 a'',
        unregister_from_activity st name email = .ok (st', msg) ∧
        signup_for_activity st' name email = .ok (st'', msg2) ∧
        lookupActivity st'' name = some a'' ∧
        (∀ x, x ∈ a''.participants ↔ x ∈ a.participants) ∧
        a''.participants ≠ a.participants) := by
  obtain ⟨hnd, hlen⟩ := hinv _ (lookupActivity_mem hlook)
  obtain ⟨l1, l2, hnm, hsplit, herase⟩ := List.exists_erase_eq hmem
  constructor
  · refine ⟨l1, l2, hsplit, hnm, _, _, unregister_eq_of_ok hlook hmem, ?_⟩
    have h := lookupActivity_setParticipants_self hlook (a.participants.erase email)
    nth_rewrite 2 [herase] at h
    exact h
  · intro hlast
    have hlook' :
        lookupActivity (setParticipants st name (a.participants.erase email))
            name =
          some { a with participants := a.participants.erase email } :=
      lookupActivity_setParticipants_self hlook _
    have hmem' : email ∉ a.participants.erase email := hnd.not_mem_erase
    have hcap' : (a.participants.erase email).length < a.max_participants :=
      length_erase_lt_max hmem hlen
    refine ⟨_, _, _, _, _, unregister_eq_of_ok hlook hmem,
      signup_eq_of_ok hlook' hmem' hcap',
      lookupActivity_setParticipants_self hlook' _,
      fun x => mem_erase_append_iff hmem x, ?_⟩
    intro hEq
    have hEq' : a.participants.erase email ++ [email] = a.participants := hEq
    have hconcat :
        (a.participants.erase email ++ [email]).getLast? = some email :=
      List.getLast?_concat _
    rw [hEq'] at hconcat
    exact hlast hconcat

/-- Witness for `withdraw_first_occurrence`: withdrawing
`michael@mergington.edu` (first of two participants) from Chess Club
removes exactly his entry, and the withdraw-then-re-enroll round trip
restores the set but yields a differently ordered roster. -/
theorem withdraw_first_occurrence_witness :
    (∃ l1 l2,
      (["michael@mergington.edu", "daniel@mergington.edu"] : List String) =
        l1 ++ "michael@mergington.edu" :: l2 ∧
      "michael@mergington.edu" ∉ l1 ∧
      ∃ st' msg,
        unregister_from_activity activities "Chess Club"
          "michael@mergington.edu" = .ok (st', msg) ∧
        lookupActivity st' "Chess Club" =
          some { description := "Learn strategies and compete in chess tournaments",
                 schedule := "Fridays, 3:30 PM - 5:00 PM",
                 max_participants := 12,
                 participants := l1 ++ l2 }) ∧
    ((["michael@mergington.edu", "daniel@mergington.edu"] : List String).getLast? ≠
        some "michael@mergington.edu" →
      ∃ st' msg st'' msg2 a'',
        unregister_from_activity activities "Chess Club"
          "michael@mergington.edu" = .ok (st', msg) ∧
        signup_for_activity st' "Chess Club" "michael@mergington.edu" =
          .ok (st'', msg2) ∧
        lookupActivity st'' "Chess Club" = some a'' ∧
        (∀ x, x ∈ a''.participants ↔
          x ∈ ["michael@mergington.edu", "daniel@mergington.edu"]) ∧
        a''.participants ≠ ["michael@mergington.edu", "daniel@mergington.edu"]) :=
  withdraw_first_occurrence activities "Chess Club" "michael@mergington.edu"
    { description := "Learn strategies and compete in chess tournaments",
      schedule := "Fridays, 3:30 PM - 5:00 PM",
      max_participants := 12,
      participants := ["michael@mergington.edu", "daniel@mergington.edu"] }
    (by decide) (by decide) (by decide)

/-- Witness for `list_activities_pure`: listing the seed state returns the
seed state. -/
theorem list_activities_pure_witness : get_activities activities = activities :=
  (list_activities_pure activities).1
